import Mathlib

/-!
Shallow embedding of the FullStack-RAG backend (backend/preprocess.js and
backend/index.js) for checking the natural-language specification.

The ingestion pipeline (preprocess.js) reads PDF files, splits them into
chunks, generates embeddings for each chunk via a remote API with retries,
and writes fixed-size sub-batches to a ChromaDB vector index.  The query
pipeline (index.js) validates the question, embeds it, queries the index,
filters by a distance threshold, builds a context string, and generates an
answer with a multi-model fallthrough and a deterministic structured
fallback.

Remote calls (embedding API, generation API, vector-index reads/writes) are
modelled by explicit outcome oracles passed as arguments: `none` / `false`
means the call threw, `some v` / `true` means it returned `v`.  JavaScript
numbers used as distances are modelled as rationals (the code only compares
them against the threshold 1.5).  Strings are modelled as Lean `String` /
`List Char`; loop-shaped string helpers are written with explicit fuel so
that every definition evaluates inside the kernel.
-/

namespace RAG

/-! Section: Configuration constants (preprocess.js lines 19-23) -/

def BATCH_SIZE : Nat := 2
def CHUNK_BATCH_SIZE : Nat := 10
def MAX_RETRIES : Nat := 3
def MAX_PDFS : Nat := 5

/-! Section: Character-level string helpers mirroring the JavaScript semantics -/

/-- Whitespace for JavaScript `String.prototype.trim` (the characters that
occur in this code base's data). -/
def isWS (c : Char) : Bool :=
  c = ' ' || c = '\t' || c = '\n' || c = '\r'

/-- JavaScript `s.trim()` on the character list. -/
def trimL (l : List Char) : List Char :=
  ((l.dropWhile isWS).reverse.dropWhile isWS).reverse

/-- JavaScript `s.trim()` on strings. -/
def jsTrim (s : String) : String :=
  String.mk (trimL s.data)

/-! Section: Title derivation and file discovery (preprocess.js lines 142, 196, 267-270)

`fileName.replace('.PDF', '')` in JavaScript replaces only the FIRST
occurrence of the exact, case-sensitive substring `.PDF`;
`.replace(/_/g, ' ')` replaces every underscore.  The discovery filter is
`f.toLowerCase().endsWith('.pdf')`, i.e. case-insensitive. -/

/-- The literal pattern `.PDF` used by `fileName.replace('.PDF', '')`. -/
def pdfPat : List Char := ['.', 'P', 'D', 'F']

/-- JavaScript `s.replace(pat, '')` with a string pattern: delete the first
occurrence of `pat`, leave the string unchanged when `pat` does not occur. -/
def replaceFirstDel (pat : List Char) : List Char → List Char
  | [] => []
  | c :: rest =>
    if pat.isPrefixOf (c :: rest) then (c :: rest).drop pat.length
    else c :: replaceFirstDel pat rest

/-- `pat` occurs as a contiguous substring. -/
def hasSubstr (pat : List Char) : List Char → Bool
  | [] => pat.isEmpty
  | c :: rest => pat.isPrefixOf (c :: rest) || hasSubstr pat rest

/-- The per-character effect of `.replace(/_/g, ' ')`. -/
def usToSpace (c : Char) : Char := if c = '_' then ' ' else c

/-- `fileName.replace('.PDF', '').replace(/_/g, ' ')` (preprocess.js
lines 142 and 196). -/
def titleOf (fileName : String) : String :=
  String.mk ((replaceFirstDel pdfPat fileName.data).map usToSpace)

/-- The discovery filter `f.toLowerCase().endsWith('.pdf')`
(preprocess.js line 268). -/
def acceptedByFilter (f : String) : Bool :=
  List.isSuffixOf ['.', 'p', 'd', 'f'] (f.data.map Char.toLower)

/-! Section: Metadata construction (preprocess.js lines 37-50 and 192-201) -/

/-- A JavaScript metadata value as handled by `cleanMetadata`. -/
inductive MVal where
  | s (v : String)
  | n (v : Nat)
  | b (v : Bool)
  | null
  | undef
  deriving DecidableEq, Repr

/-- `cleanMetadata` (preprocess.js lines 38-50): drop `null`/`undefined`
entries, keep string/number/boolean values (this code base produces no
other value kinds, so the `String(value)` branch is never taken). -/
def cleanMetadata (m : List (String × MVal)) : List (String × MVal) :=
  m.filterMap (fun kv =>
    match kv.2 with
    | MVal.null => none
    | MVal.undef => none
    | v => some (kv.1, v))

/-- The metadata object built for the chunk at offset `idx` of a sub-batch
that starts at document-global index `startIndex` (preprocess.js
lines 192-201).  `batchLen` is `docs.length` INSIDE `processChunkBatch`,
i.e. the sub-batch length; `now` stands for `new Date().toISOString()`. -/
def chunkMetadataAt (fileName : String) (startIndex batchLen idx : Nat)
    (now : String) : List (String × MVal) :=
  cleanMetadata
    [ ("filename", MVal.s fileName)
    , ("source", MVal.s fileName)
    , ("title", MVal.s (titleOf fileName))
    , ("chunk_index", MVal.n (startIndex + idx))
    , ("total_chunks", MVal.n batchLen)
    , ("processed_at", MVal.s now) ]

/-- The metadata array of one sub-batch: `docs.map((doc, idx) => ...)`
(preprocess.js lines 192-201). -/
def chunkBatchMetadatas (fileName : String) (batch : List String)
    (startIndex : Nat) (now : String) : List (List (String × MVal)) :=
  (List.range batch.length).map
    (fun idx => chunkMetadataAt fileName startIndex batch.length idx now)

/-- The id array of one sub-batch:
`docs.map((_, idx) => \x60${fileName}_chunk_${startIndex + idx}\x60)`
(preprocess.js line 189). -/
def idFor (fileName : String) (j : Nat) : String :=
  fileName ++ "_chunk_" ++ toString j

def chunkBatchIds (fileName : String) (batch : List String)
    (startIndex : Nat) : List String :=
  (List.range batch.length).map (fun idx => idFor fileName (startIndex + idx))

/-! Section: The per-document sub-batch loop (preprocess.js lines 152-162)

`for (let i = 0; i < docs.length; i += CHUNK_BATCH_SIZE)` with
`chunkBatch = docs.slice(i, i + CHUNK_BATCH_SIZE)`.  Written with fuel
(one unit per loop iteration; `docs.length` units are always enough
because the step is `CHUNK_BATCH_SIZE = 10 ≥ 1`). -/

def processLoopIdsF (fileName : String) (docs : List String) :
    Nat → Nat → List String
  | _, 0 => []
  | i, fuel + 1 =>
    if i < docs.length then
      chunkBatchIds fileName ((docs.drop i).take CHUNK_BATCH_SIZE) i
        ++ processLoopIdsF fileName docs (i + CHUNK_BATCH_SIZE) fuel
    else []

/-- All ids prepared for one document across its sub-batches, in order. -/
def processLoopIds (fileName : String) (docs : List String) : List String :=
  processLoopIdsF fileName docs 0 docs.length

def processLoopMetasF (fileName : String) (docs : List String) (now : String) :
    Nat → Nat → List (List (String × MVal))
  | _, 0 => []
  | i, fuel + 1 =>
    if i < docs.length then
      chunkBatchMetadatas fileName ((docs.drop i).take CHUNK_BATCH_SIZE) i now
        ++ processLoopMetasF fileName docs now (i + CHUNK_BATCH_SIZE) fuel
    else []

/-- All metadata objects prepared for one document across its sub-batches. -/
def processLoopMetas (fileName : String) (docs : List String) (now : String) :
    List (List (String × MVal)) :=
  processLoopMetasF fileName docs now 0 docs.length

/-- Look a key up in a metadata object. -/
def metaLookup (key : String) (m : List (String × MVal)) : Option MVal :=
  (m.find? (fun kv => kv.1 = key)).map (·.2)

/-! Section: Embedding client with retries (preprocess.js lines 53-83)

`generateEmbedding(text, retries = 0)` makes one remote attempt; on error,
if `retries < MAX_RETRIES` it sleeps `1000 * (retries + 1)` ms and recurses
with `retries + 1`, otherwise it rethrows.  `attemptOutcome k` is the
outcome of the remote call made with parameter `retries = k` (`none` =
threw, `some v` = returned vector `v`).  The function returns the final
result (`none` = error propagated to the caller), the number of remote
attempts made, and the list of sleep delays in chronological order. -/

def genEmbedAux (attemptOutcome : Nat → Option (List ℚ)) :
    Nat → Nat → Option (List ℚ) × Nat × List Nat
  | _, 0 => (none, 0, [])
  | retries, fuel + 1 =>
    match attemptOutcome retries with
    | some v => (some v, 1, [])
    | none =>
      if retries < MAX_RETRIES then
        let r := genEmbedAux attemptOutcome (retries + 1) fuel
        (r.1, r.2.1 + 1, 1000 * (retries + 1) :: r.2.2)
      else (none, 1, [])

/-- One full run of `generateEmbedding(text)` (`retries` starts at 0; the
recursion depth is bounded by `MAX_RETRIES + 1`, which the fuel covers). -/
def generateEmbeddingRun (attemptOutcome : Nat → Option (List ℚ)) :
    Option (List ℚ) × Nat × List Nat :=
  genEmbedAux attemptOutcome 0 (MAX_RETRIES + 1)

/-! Section: Sub-batch processing (preprocess.js lines 185-251)

`processChunkBatch` generates one embedding per chunk sequentially
(aborting on the first failure: the inner catch rethrows), then calls
`collection.add` in a `while (retries < MAX_RETRIES)` loop; the outer
catch turns any propagated error into a return value of 0, and a
successful add returns `documents.length`.  `embedOutcome i` is the final
outcome of `generateEmbedding(documents[i])` (retries already folded in);
`addOutcome k` tells whether the k-th `collection.add` attempt succeeds. -/

/-- The sequential embedding loop over chunks `i, i+1, ...` (`count` many
chunks remain).  `none` models the rethrown error of the first failed
chunk. -/
def genEmbedsFrom (embedOutcome : Nat → Option (List ℚ)) (i : Nat) :
    Nat → Option (List (List ℚ))
  | 0 => some []
  | count + 1 =>
    match embedOutcome i with
    | none => none
    | some e => (genEmbedsFrom embedOutcome (i + 1) count).map (e :: ·)

/-- The `collection.add` retry loop (preprocess.js lines 226-246):
`some ()` when an attempt succeeds, `none` when the loop rethrows after
`MAX_RETRIES` failed attempts.  The fuel equals the attempt budget. -/
def addWithRetry (addOutcome : Nat → Bool) : Nat → Nat → Option Unit
  | _, 0 => none
  | retries, fuel + 1 =>
    if retries < MAX_RETRIES then
      if addOutcome retries then some ()
      else if MAX_RETRIES ≤ retries + 1 then none
      else addWithRetry addOutcome (retries + 1) fuel
    else none

/-- The number of chunks reported added by `processChunkBatch` for a
sub-batch of `n` chunks: `n` when everything succeeds, `0` when the outer
catch swallows an embedding or index-write error. -/
def processChunkBatchCount (n : Nat) (embedOutcome : Nat → Option (List ℚ))
    (addOutcome : Nat → Bool) : Nat :=
  match genEmbedsFrom embedOutcome 0 n with
  | none => 0
  | some _ =>
    match addWithRetry addOutcome 0 MAX_RETRIES with
    | some _ => n
    | none => 0

/-! Section: Structured fallback (index.js lines 674-715)

`generateStructuredFallback(context, question)` is pure string
manipulation: it re-splits the context on `[Document`, extracts a title
with the regex `(\d+): ([^\]]+)\]` and a leading long-enough sentence per
piece, and formats a bulleted answer.  None of its operations can throw on
string inputs, so the surrounding catch is dead code on this model. -/

/-- JavaScript `s.split(sep)` for a non-empty string separator, on char
lists.  Fuel is one unit per consumed character; `l.length` suffices. -/
def splitOnSubAux (sep : List Char) : Nat → List Char → List Char →
    List (List Char)
  | _, [], acc => [acc.reverse]
  | 0, l, acc => [acc.reverse ++ l]
  | fuel + 1, c :: rest, acc =>
    if sep.isPrefixOf (c :: rest) then
      acc.reverse :: splitOnSubAux sep fuel ((c :: rest).drop sep.length) []
    else splitOnSubAux sep fuel rest (c :: acc)

def splitOnSub (sep l : List Char) : List (List Char) :=
  splitOnSubAux sep l.length l []

/-- JavaScript `s.split(/[.!?]+/)`: split on maximal runs of sentence
punctuation. -/
def isSentEnd (c : Char) : Bool := c = '.' || c = '!' || c = '?'

def splitPunctRunsAux : Nat → List Char → List Char → List (List Char)
  | _, [], acc => [acc.reverse]
  | 0, l, acc => [acc.reverse ++ l]
  | fuel + 1, c :: rest, acc =>
    if isSentEnd c then
      acc.reverse :: splitPunctRunsAux fuel (rest.dropWhile isSentEnd) []
    else splitPunctRunsAux fuel rest (c :: acc)

def splitPunctRuns (l : List Char) : List (List Char) :=
  splitPunctRunsAux l.length l []

/-- One anchored attempt of the regex `(\d+): ([^\]]+)\]` at the head of
`l`, returning capture group 2.  Backtracking cannot help this pattern
(shortening `\d+` leaves a digit where `:` is required; shortening
`[^\]]+` leaves a non-`]` where `]` is required), so maximal munch is
exact. -/
def matchTitleAt (l : List Char) : Option (List Char) :=
  let ds := l.takeWhile Char.isDigit
  if ds.isEmpty then none
  else
    match l.drop ds.length with
    | ':' :: ' ' :: rest =>
      let g2 := rest.takeWhile (fun c => c ≠ ']')
      if g2.isEmpty then none
      else
        match rest.drop g2.length with
        | ']' :: _ => some g2
        | _ => none
    | _ => none

/-- Leftmost match of the title regex: `doc.match(/(\d+): ([^\]]+)\]/)`
(index.js line 684), returning capture group 2. -/
def findTitleMatch : List Char → Option (List Char)
  | [] => none
  | c :: rest =>
    match matchTitleAt (c :: rest) with
    | some g => some g
    | none => findTitleMatch rest

/-- index.js lines 683-695: title and key sentence for the piece at
position `idx` of the filtered split (only called with `idx ≠ 0`). -/
def extractInfo (idx : Nat) (doc : List Char) : List Char × List Char :=
  let title :=
    match findTitleMatch doc with
    | some g => g
    | none => ("Document " ++ toString idx).data
  let content := trimL ((splitOnSub ['-', '-', '-'] doc).headD [])
  let sentences :=
    (splitPunctRuns content).filter (fun sct => 20 < (trimL sct).length)
  let keySentence :=
    match sentences with
    | [] => content.take 150
    | sct :: _ => if sct.isEmpty then content.take 150 else sct
  (trimL title, trimL keySentence)

/-- The `documents.forEach((doc, index) => ...)` loop (index.js
lines 680-696): skip index 0, collect `{title, content}` for the rest. -/
def extractInfos (docs : List (List Char)) : List (List Char × List Char) :=
  docs.enum.filterMap
    (fun p => if p.1 = 0 then none else some (extractInfo p.1 p.2))

/-- `generateStructuredFallback(context, question)` (index.js
lines 674-715).  A pure function of its two string arguments: the model
has no oracle parameter because the source makes no remote call here. -/
def generateStructuredFallback (context question : String) : String :=
  let documents :=
    (splitOnSub "[Document".data context.data).filter (fun d => trimL d ≠ [])
  let relevantInfo := extractInfos documents
  let base :=
    "Based on the legal documents, here\x27s what I found regarding \""
      ++ question ++ "\":\n\n"
  let body := relevantInfo.foldl
    (fun acc info =>
      acc ++ "📄 **" ++ String.mk info.1 ++ "**\n" ++ String.mk info.2
        ++ "\n\n")
    base
  body
    ++ ("---\n💡 This information is extracted directly from "
        ++ toString relevantInfo.length
        ++ " relevant legal document(s). ")
    ++ "For more detailed analysis, please ensure the AI service is available."

/-! Section: Answer generation (index.js lines 578-671)

`generateAnswer(context, question)` first checks the credential: a missing,
empty or placeholder `GEMINI_API_KEY` returns a plain template immediately
(no backend call).  Otherwise it tries three Gemini models in order; the
first success returns the trimmed text, and when the last model fails the
outer catch returns `generateStructuredFallback(context, question)` for
every error shape (503, 429 and default all call the same function).
`backendOutcome i` is the outcome of the attempt on `modelEndpoints[i]`
(`some t` = extracted `candidates[0].content.parts[0].text`, `none` = the
request failed or the response shape was invalid). -/

def modelEndpoints : List String :=
  ["gemini-1.5-flash-latest", "gemini-1.5-flash", "gemini-pro"]

def placeholderKey : String := "your-actual-gemini-api-key-here"

/-- `!process.env.GEMINI_API_KEY ||
process.env.GEMINI_API_KEY.includes('your-actual-gemini-api-key-here')`:
the key is absent, empty (falsy) or contains the placeholder. -/
def credentialMissing (apiKey : Option String) : Bool :=
  match apiKey with
  | none => true
  | some k => k = "" || hasSubstr placeholderKey.data k.data

/-- The `for` loop over `modelEndpoints` (index.js lines 610-654): first
success wins; `none` when every model fails. -/
def tryModelsAux (backendOutcome : Nat → Option String) (i : Nat) :
    Nat → Option String
  | 0 => none
  | remaining + 1 =>
    match backendOutcome i with
    | some text => some text
    | none => tryModelsAux backendOutcome (i + 1) remaining

/-- The immediate return for a missing credential (index.js line 582). -/
def missingKeyTemplate (context question : String) : String :=
  "Based on the legal documents found:\n\n" ++ context
    ++ "\n\nRelevant information for: \"" ++ question ++ "\""

/-- `generateAnswer(context, question)` (index.js lines 578-671). -/
def generateAnswer (apiKey : Option String)
    (backendOutcome : Nat → Option String) (context question : String) :
    String :=
  if credentialMissing apiKey then missingKeyTemplate context question
  else
    match tryModelsAux backendOutcome 0 modelEndpoints.length with
    | some text => jsTrim text
    | none => generateStructuredFallback context question

/-! Section: Query endpoint (index.js lines 718-792)

The handler destructures `req.body.question`, validates it, embeds it,
queries ChromaDB for 5 nearest neighbours, filters by distance `< 1.5`,
builds a context from the good matches, and calls `generateAnswer`.  Any
exception reaches the outer catch, which answers HTTP 500.  The model
returns the response together with the number of embedding calls and of
vector-index queries issued, to make "rejects before any remote call"
statable. -/

/-- A JavaScript value as it can appear in `req.body.question` after JSON
parsing (`obj` covers arrays and objects, which are always truthy). -/
inductive JSVal where
  | undef
  | null
  | str (s : String)
  | num (n : Int)
  | bool (b : Bool)
  | obj
  deriving DecidableEq, Repr

def jsTruthy : JSVal → Bool
  | JSVal.undef => false
  | JSVal.null => false
  | JSVal.str s => s ≠ ""
  | JSVal.num n => n ≠ 0
  | JSVal.bool b => b
  | JSVal.obj => true

def isStringVal : JSVal → Bool
  | JSVal.str _ => true
  | _ => false

/-- The string content of a `str` value (the handler only reaches string
operations after the `typeof question !== 'string'` guard). -/
def strOf : JSVal → String
  | JSVal.str s => s
  | _ => ""

/-- The validation guard
`!question || typeof question !== 'string' || question.trim().length < 3`
(index.js line 722). -/
def questionInvalid (q : JSVal) : Bool :=
  !jsTruthy q || !isStringVal q || decide ((trimL (strOf q).data).length < 3)

/-- `distances[i] < 1.5`, with the JavaScript convention that an
out-of-range access yields `undefined` and `undefined < 1.5` is false. -/
def distBelow (dists : List ℚ) (i : Nat) : Bool :=
  match dists.get? i with
  | some d => decide (d < 1.5)
  | none => false

/-- `documents.filter((_, i) => distances[i] < 1.5)` (index.js line 756). -/
def filterGood (docs : List String) (dists : List ℚ) : List String :=
  (docs.enum.filter (fun p => distBelow dists p.1)).map Prod.snd

/-- The metadata object of one stored match, as used by the handler
(`metadata.title`, index.js line 769). -/
structure MatchMeta where
  title : String
  deriving DecidableEq, Repr

/-- The `[0]`-indexed parallel arrays of one ChromaDB query response
(`results.documents[0]`, `results.metadatas[0]`, `results.distances[0]`). -/
structure ChromaResult where
  documents : List String
  metadatas : List MatchMeta
  distances : List ℚ
  deriving Repr

/-- JavaScript `documents.indexOf(doc)`, `none` for `-1`. -/
def jsIndexOf (x : String) : List String → Option Nat
  | [] => none
  | y :: rest => if y = x then some 0 else (jsIndexOf x rest).map (· + 1)

/-- One context entry (index.js lines 767-771):
`[Document i+1: title]` newline, the document truncated to 800 characters
with an ellipsis, newline, `---`.  `none` models the TypeError thrown when
`metadatas[documents.indexOf(doc)]` is `undefined` (propagates to the
outer catch). -/
def contextEntry (docs : List String) (metas : List MatchMeta) (i : Nat)
    (doc : String) : Option String :=
  match (jsIndexOf doc docs).bind (fun mi => metas.get? mi) with
  | none => none
  | some m =>
    some ("[Document " ++ toString (i + 1) ++ ": " ++ m.title ++ "]\n"
      ++ String.mk (doc.data.take 800)
      ++ (if 800 < doc.data.length then "..." else "") ++ "\n---")

/-- `goodMatches.slice(0, 5).map(...).join('\n')` (index.js
lines 767-772). -/
def buildContext (goodMatches docs : List String) (metas : List MatchMeta) :
    Option String :=
  (((goodMatches.take 5).enum.mapM
      (fun p => contextEntry docs metas p.1 p.2)).map
    (String.intercalate "\n"))

/-- A handler response: `error s m` is an HTTP `s` with
`{success: false, message: m}`; `answer a m` is an HTTP 200 with
`{success: true, answer: a, matches: m}`. -/
inductive QueryResponse where
  | error (status : Nat) (message : String)
  | answer (a : String) (matchCount : Nat)
  deriving DecidableEq, Repr

def serverErrorMsg : String := "Failed to process query. Please try again."

def tooShortMsg : String := "Question must be at least 3 characters long"

def noDocsMsg : String :=
  "I couldn\x27t find any relevant documents for your question. "
    ++ "Please try rephrasing your query or ask about different legal topics."

def notRelatedMsg : String :=
  "I found some documents, but they don\x27t seem closely related to your "
    ++ "question. Please try rephrasing your query or ask about different "
    ++ "legal topics."

/-- The `/api/query` handler body (index.js lines 718-792).  `embedOutcome`
is the final outcome of `generateEmbedding(question)` (`none` = threw),
`queryOutcome` the outcome of `collection.query` (`none` = threw).  The
second and third components count embedding calls and index queries. -/
def handleQuery (question : JSVal) (apiKey : Option String)
    (backendOutcome : Nat → Option String)
    (embedOutcome : Option (List ℚ)) (queryOutcome : Option ChromaResult) :
    QueryResponse × Nat × Nat :=
  if questionInvalid question then
    (QueryResponse.error 400 tooShortMsg, 0, 0)
  else
    match embedOutcome with
    | none => (QueryResponse.error 500 serverErrorMsg, 1, 0)
    | some _ =>
      match queryOutcome with
      | none => (QueryResponse.error 500 serverErrorMsg, 1, 1)
      | some res =>
        if res.documents.isEmpty then
          (QueryResponse.answer noDocsMsg 0, 1, 1)
        else
          let goodMatches := filterGood res.documents res.distances
          if goodMatches.isEmpty then
            (QueryResponse.answer notRelatedMsg 0, 1, 1)
          else
            match buildContext goodMatches res.documents res.metadatas with
            | none => (QueryResponse.error 500 serverErrorMsg, 1, 1)
            | some context =>
              (QueryResponse.answer
                (generateAnswer apiKey backendOutcome context
                  (strOf question))
                goodMatches.length, 1, 1)

/-! Section: Supporting lemmas -/

/-- The sequential embedding loop succeeds exactly when every chunk in its
window embeds successfully. -/
lemma genEmbedsFrom_isSome (eo : Nat → Option (List ℚ)) :
    ∀ (count i : Nat),
      (genEmbedsFrom eo i count).isSome = true
        ↔ ∀ j, j < count → (eo (i + j)).isSome = true := by
  intro count
  induction count with
  | zero => intro i; simp [genEmbedsFrom]
  | succ c ih =>
    intro i
    rw [genEmbedsFrom]
    cases h : eo i with
    | none =>
      simp only [Option.isSome_none]
      constructor
      · intro hfalse; cases hfalse
      · intro hall
        have := hall 0 (Nat.succ_pos c)
        rw [Nat.add_zero, h] at this
        cases this
    | some e =>
      have hmap : ∀ (o : Option (List (List ℚ))),
          (o.map (fun x => e :: x)).isSome = o.isSome := by
        intro o; cases o <;> rfl
      rw [hmap, ih (i + 1)]
      constructor
      · intro hall j hj
        cases j with
        | zero => rw [Nat.add_zero, h]; rfl
        | succ j' =>
          have := hall j' (by omega)
          rw [show i + 1 + j' = i + (j' + 1) by omega] at this
          exact this
      · intro hall j hj
        have := hall (j + 1) (by omega)
        rw [show i + (j + 1) = i + 1 + j by omega] at this
        exact this

/-- The `collection.add` retry loop succeeds exactly when one of the first
`MAX_RETRIES` attempts succeeds. -/
lemma addWithRetry_isSome (ao : Nat → Bool) :
    (addWithRetry ao 0 MAX_RETRIES).isSome = true
      ↔ ∃ k, k < MAX_RETRIES ∧ ao k = true := by
  rcases h0 : ao 0 <;> rcases h1 : ao 1 <;> rcases h2 : ao 2 <;>
    simp [addWithRetry, MAX_RETRIES, h0, h1, h2] <;>
    first
    | (intro k hk; interval_cases k <;> simp [h0, h1, h2])
    | (first
        | exact ⟨0, by omega, h0⟩
        | exact ⟨1, by omega, h1⟩
        | exact ⟨2, by omega, h2⟩)

/-! Section: Claim theorems -/

/-- C1: for every sub-batch, `processChunkBatch` reports either 0 chunks
added or exactly the sub-batch size, never a strictly intermediate value;
an embedding failure for any chunk yields 0, an index write that fails all
`MAX_RETRIES` attempts yields 0, and full success yields the sub-batch
size. -/
theorem processChunkBatch_all_or_nothing (n : Nat)
    (eo : Nat → Option (List ℚ)) (ao : Nat → Bool) :
    (processChunkBatchCount n eo ao = 0 ∨ processChunkBatchCount n eo ao = n)
    ∧ ((∃ i, i < n ∧ eo i = none) → processChunkBatchCount n eo ao = 0)
    ∧ ((∀ i, i < n → (eo i).isSome = true) →
        (∀ k, k < MAX_RETRIES → ao k = false) →
        processChunkBatchCount n eo ao = 0)
    ∧ ((∀ i, i < n → (eo i).isSome = true) →
        (∃ k, k < MAX_RETRIES ∧ ao k = true) →
        processChunkBatchCount n eo ao = n) := by
  refine ⟨?_, ?_, ?_, ?_⟩
  · unfold processChunkBatchCount
    cases hg : genEmbedsFrom eo 0 n with
    | none => exact Or.inl rfl
    | some _ =>
      cases ha : addWithRetry ao 0 MAX_RETRIES with
      | none => exact Or.inl rfl
      | some _ => exact Or.inr rfl
  · rintro ⟨i, hi, hnone⟩
    unfold processChunkBatchCount
    cases hg : genEmbedsFrom eo 0 n with
    | none => rfl
    | some _ =>
      have hall := (genEmbedsFrom_isSome eo n 0).mp (by rw [hg]; rfl)
      have := hall i hi
      rw [Nat.zero_add, hnone] at this
      cases this
  · intro hemb hfail
    unfold processChunkBatchCount
    cases hg : genEmbedsFrom eo 0 n with
    | none => rfl
    | some _ =>
      cases ha : addWithRetry ao 0 MAX_RETRIES with
      | none => rfl
      | some _ =>
        rcases (addWithRetry_isSome ao).mp (by rw [ha]; rfl) with ⟨k, hk, hok⟩
        rw [hfail k hk] at hok
        cases hok
  · intro hemb hok
    unfold processChunkBatchCount
    cases hg : genEmbedsFrom eo 0 n with
    | none =>
      have : (genEmbedsFrom eo 0 n).isSome = true :=
        (genEmbedsFrom_isSome eo n 0).mpr
          (fun j hj => by rw [Nat.zero_add]; exact hemb j hj)
      rw [hg] at this
      cases this
    | some _ =>
      cases ha : addWithRetry ao 0 MAX_RETRIES with
      | none =>
        have : (addWithRetry ao 0 MAX_RETRIES).isSome = true :=
          (addWithRetry_isSome ao).mpr hok
        rw [ha] at this
        cases this
      | some _ => rfl

/-- Witness for C1: a 2-chunk sub-batch where every embedding succeeds and
the first index write succeeds reports exactly 2 chunks added. -/
theorem processChunkBatch_all_or_nothing_witness :
    processChunkBatchCount 2 (fun _ => some [1]) (fun _ => true) = 2 :=
  (processChunkBatch_all_or_nothing 2 (fun _ => some [1])
      (fun _ => true)).2.2.2
    (fun _ _ => rfl) ⟨0, by decide, rfl⟩

/-- Counterexample to C2: when every remote attempt fails,
`generateEmbedding` makes 4 attempts (the initial call plus `MAX_RETRIES`
retries), not at most `MAX_RETRIES = 3`. -/
theorem generateEmbedding_three_attempts_cex :
    (generateEmbeddingRun (fun _ => none)).2.1 = 4
    ∧ ¬ (generateEmbeddingRun (fun _ => none)).2.1 ≤ MAX_RETRIES := by
  decide

/-- C2 (amended): for every input, `generateEmbedding` makes at most
`MAX_RETRIES + 1 = 4` remote attempts; between consecutive attempts it
sleeps `1000 ms × n` after the n-th attempt (linear backoff, delays
`[1000, 2000, 3000]` in the worst case); and when every attempt fails the
run ends with the error rethrown to the caller (`none`) after exactly 4
attempts. -/
theorem generateEmbedding_retry_policy (oc : Nat → Option (List ℚ)) :
    (generateEmbeddingRun oc).2.1 ≤ MAX_RETRIES + 1
    ∧ (generateEmbeddingRun oc).2.2
        = (List.range ((generateEmbeddingRun oc).2.1 - 1)).map
            (fun k => 1000 * (k + 1))
    ∧ ((∀ k, k ≤ MAX_RETRIES → oc k = none) →
        generateEmbeddingRun oc = (none, 4, [1000, 2000, 3000])) := by
  rcases h0 : oc 0 with _ | v0
  · rcases h1 : oc 1 with _ | v1
    · rcases h2 : oc 2 with _ | v2
      · rcases h3 : oc 3 with _ | v3
        · have hrun : generateEmbeddingRun oc = (none, 4, [1000, 2000, 3000]) := by
            simp [generateEmbeddingRun, genEmbedAux, MAX_RETRIES,
              h0, h1, h2, h3]
          exact ⟨by rw [hrun]; decide, by rw [hrun]; decide, fun _ => hrun⟩
        · refine ⟨?_, ?_, ?_⟩ <;>
            simp [generateEmbeddingRun, genEmbedAux, MAX_RETRIES,
              h0, h1, h2, h3]
          · decide
          · exact ⟨3, by omega, by rw [h3]; simp⟩
      · refine ⟨?_, ?_, ?_⟩ <;>
          simp [generateEmbeddingRun, genEmbedAux, MAX_RETRIES, h0, h1, h2]
        · decide
        · exact ⟨2, by omega, by rw [h2]; simp⟩
    · refine ⟨?_, ?_, ?_⟩ <;>
        simp [generateEmbeddingRun, genEmbedAux, MAX_RETRIES, h0, h1]
      · decide
      · exact ⟨1, by omega, by rw [h1]; simp⟩
  · refine ⟨?_, ?_, ?_⟩ <;>
      simp [generateEmbeddingRun, genEmbedAux, MAX_RETRIES, h0]
    exact ⟨0, by omega, by rw [h0]; simp⟩

/-- Witness for C2 (amended): the all-failing run makes exactly 4 attempts
with delays 1000, 2000, 3000 ms and rethrows. -/
theorem generateEmbedding_retry_policy_witness :
    generateEmbeddingRun (fun _ => none) = (none, 4, [1000, 2000, 3000]) :=
  (generateEmbedding_retry_policy (fun _ => none)).2.2 (fun _ _ => rfl)

/-- The model fallthrough loop returns `none` when every backend fails. -/
lemma tryModelsAux_all_none (bk : Nat → Option String)
    (h : ∀ i, bk i = none) :
    tryModelsAux bk 0 modelEndpoints.length = none := by
  simp [tryModelsAux, modelEndpoints, h]

/-- Counterexample to C3: with the credential absent, `generateAnswer`
returns the plain template of index.js line 582, which differs from the
structured fallback produced when every generation backend fails. -/
theorem missingKey_vs_backendFail_cex :
    generateAnswer none (fun _ => none) "" "q"
      ≠ generateAnswer (some "k") (fun _ => none) "" "q" := by
  decide

/-- C3 (amended): a missing or placeholder generation credential is
treated as a non-fatal fallback at query time — `generateAnswer` returns a
template built only from the context and question, without consulting any
backend — but this path is NOT the same composition as the
all-backends-failed path, which returns `generateStructuredFallback`
instead. -/
theorem missingKey_fallback_policy :
    (∀ (bk bk' : Nat → Option String) (ctx q : String),
        generateAnswer none bk ctx q = generateAnswer none bk' ctx q)
    ∧ (∀ (key : Option String) (bk : Nat → Option String) (ctx q : String),
        credentialMissing key = true →
        generateAnswer key bk ctx q = missingKeyTemplate ctx q)
    ∧ (∀ (key : Option String) (bk : Nat → Option String) (ctx q : String),
        credentialMissing key = false → (∀ i, bk i = none) →
        generateAnswer key bk ctx q = generateStructuredFallback ctx q) := by
  refine ⟨?_, ?_, ?_⟩
  · intro bk bk' ctx q
    simp [generateAnswer, credentialMissing]
  · intro key bk ctx q hkey
    simp [generateAnswer, hkey]
  · intro key bk ctx q hkey hfail
    simp [generateAnswer, hkey, tryModelsAux_all_none bk hfail]

/-- Witness for C3 (amended): with a configured key and every backend
failing, the answer is the structured fallback; with the key missing it is
the plain template. -/
theorem missingKey_fallback_policy_witness :
    credentialMissing (some "k") = false
    ∧ generateAnswer (some "k") (fun _ => none) "c" "q"
        = generateStructuredFallback "c" "q"
    ∧ generateAnswer none (fun _ => none) "c" "q"
        = missingKeyTemplate "c" "q" :=
  ⟨by decide,
   missingKey_fallback_policy.2.2 (some "k") (fun _ => none) "c" "q"
     (by decide) (fun _ => rfl),
   missingKey_fallback_policy.2.1 none (fun _ => none) "c" "q" rfl⟩

/-- C8: when no generation backend is reachable, the composed answer is
the structured fallback — a pure function of the context string and the
question (the model takes no oracle, mirroring that the source makes no
remote call): the answer does not depend on the backend oracle at all, it
equals `generateStructuredFallback context question` on every run (so two
runs on the same inputs produce character-identical answers), and it is
always a non-empty string. -/
theorem structuredFallback_pure_nonempty (ctx q : String)
    (key : Option String) (bk bk' : Nat → Option String)
    (hkey : credentialMissing key = false)
    (h : ∀ i, bk i = none) (h' : ∀ i, bk' i = none) :
    generateAnswer key bk ctx q = generateAnswer key bk' ctx q
    ∧ generateAnswer key bk ctx q = generateStructuredFallback ctx q
    ∧ 0 < (generateAnswer key bk ctx q).length := by
  have e1 : generateAnswer key bk ctx q = generateStructuredFallback ctx q := by
    simp [generateAnswer, hkey, tryModelsAux_all_none bk h]
  have e2 : generateAnswer key bk' ctx q = generateStructuredFallback ctx q := by
    simp [generateAnswer, hkey, tryModelsAux_all_none bk' h']
  refine ⟨e1.trans e2.symm, e1, ?_⟩
  rw [e1]
  unfold generateStructuredFallback
  rw [String.length_append, String.length_append]
  have h70 : 0 <
      "For more detailed analysis, please ensure the AI service is available.".length := by
    decide
  omega

/-- Witness for C8: concrete inputs with every backend down. -/
theorem structuredFallback_pure_nonempty_witness :
    generateAnswer (some "k") (fun _ => none) "ctx" "q"
      = generateStructuredFallback "ctx" "q"
    ∧ 0 < (generateAnswer (some "k") (fun _ => none) "ctx" "q").length :=
  ⟨(structuredFallback_pure_nonempty "ctx" "q" (some "k") (fun _ => none)
      (fun _ => none) (by decide) (fun _ => rfl) (fun _ => rfl)).2.1,
   (structuredFallback_pure_nonempty "ctx" "q" (some "k") (fun _ => none)
      (fun _ => none) (by decide) (fun _ => rfl) (fun _ => rfl)).2.2⟩

/-- C4: a question whose trimmed length is below 3 characters is rejected
with HTTP 400 and `success: false` (message "Question must be at least 3
characters long"), and the handler issues no embedding call and no
vector-index query before rejecting. -/
theorem shortQuestion_rejected (s : String) (apiKey : Option String)
    (bk : Nat → Option String) (eo : Option (List ℚ))
    (qo : Option ChromaResult) (h : (trimL s.data).length < 3) :
    handleQuery (JSVal.str s) apiKey bk eo qo
      = (QueryResponse.error 400 tooShortMsg, 0, 0) := by
  have hcond : questionInvalid (JSVal.str s) = true := by
    simp [questionInvalid, strOf, h]
  unfold handleQuery
  rw [hcond]
  simp

/-- Witness for C4: the question `" ab "` trims to 2 characters and is
rejected with no remote calls. -/
theorem shortQuestion_rejected_witness :
    (trimL " ab ".data).length < 3
    ∧ handleQuery (JSVal.str " ab ") (some "k") (fun _ => none) none none
        = (QueryResponse.error 400 tooShortMsg, 0, 0) :=
  ⟨by decide,
   shortQuestion_rejected " ab " (some "k") (fun _ => none) none none
     (by decide)⟩

/-- C10: a request body whose `question` field is absent (`undefined`),
`null`, or any non-string value gets the same HTTP 400 / `success: false` /
"Question must be at least 3 characters long" rejection as a too-short
string (here `""`, whose trimmed length is 0), with no embedding call and
no vector-index query. -/
theorem nonStringQuestion_rejected (q : JSVal) (apiKey : Option String)
    (bk : Nat → Option String) (eo : Option (List ℚ))
    (qo : Option ChromaResult) (h : isStringVal q = false) :
    handleQuery q apiKey bk eo qo
      = (QueryResponse.error 400 tooShortMsg, 0, 0)
    ∧ handleQuery q apiKey bk eo qo
      = handleQuery (JSVal.str "") apiKey bk eo qo := by
  have hcond : questionInvalid q = true := by
    simp [questionInvalid, h]
  have h1 : handleQuery q apiKey bk eo qo
      = (QueryResponse.error 400 tooShortMsg, 0, 0) := by
    unfold handleQuery
    rw [hcond]
    simp
  have h2 : handleQuery (JSVal.str "") apiKey bk eo qo
      = (QueryResponse.error 400 tooShortMsg, 0, 0) := by
    have hcond0 : questionInvalid (JSVal.str "") = true := by decide
    unfold handleQuery
    rw [hcond0]
    simp
  exact ⟨h1, h1.trans h2.symm⟩

/-- Witness for C10: a `null` question is rejected exactly like a
too-short string, with no remote calls. -/
theorem nonStringQuestion_rejected_witness :
    handleQuery JSVal.null (some "k") (fun _ => none) none none
      = (QueryResponse.error 400 tooShortMsg, 0, 0) :=
  (nonStringQuestion_rejected JSVal.null (some "k") (fun _ => none) none
    none rfl).1

/-- C5: the retrieval filter keeps exactly the matches with distance
strictly below 1.5 — on distances `[0.2, 0.8, 1.6, 2.0]` exactly the first
two documents pass, and every kept match has a recorded distance `< 1.5` —
and when zero matches pass the handler returns a successful explicit empty
result (`matches = 0` with the "not closely related" answer), not an
error. -/
theorem distanceFilter_threshold :
    filterGood ["d1", "d2", "d3", "d4"] [0.2, 0.8, 1.6, 2.0] = ["d1", "d2"]
    ∧ (∀ (docs : List String) (dists : List ℚ) (x : String),
        x ∈ filterGood docs dists →
        ∃ i d, docs.get? i = some x ∧ dists.get? i = some d ∧ d < 1.5)
    ∧ (∀ (q : String) (apiKey : Option String) (bk : Nat → Option String)
        (emb : List ℚ) (res : ChromaResult),
        questionInvalid (JSVal.str q) = false →
        res.documents ≠ [] →
        filterGood res.documents res.distances = [] →
        handleQuery (JSVal.str q) apiKey bk (some emb) (some res)
          = (QueryResponse.answer notRelatedMsg 0, 1, 1)) := by
  refine ⟨?_, ?_, ?_⟩
  · simp [filterGood, distBelow, List.enum]
    norm_num
  · intro docs dists x hx
    unfold filterGood at hx
    rcases List.mem_map.mp hx with ⟨p, hp, hpx⟩
    rcases List.mem_filter.mp hp with ⟨hmem, hpred⟩
    have hget : docs.get? p.1 = some p.2 := by
      rw [List.get?_eq_getElem?]
      exact List.mem_enum_iff_getElem?.mp hmem
    unfold distBelow at hpred
    rcases hd : dists.get? p.1 with _ | d
    · rw [hd] at hpred
      cases hpred
    · rw [hd] at hpred
      exact ⟨p.1, d, by rw [hget, hpx], hd, of_decide_eq_true hpred⟩
  · intro q apiKey bk emb res hvalid hne hempty
    have hne' : res.documents.isEmpty = false := by
      cases hd : res.documents with
      | nil => exact absurd hd hne
      | cons a l => rfl
    have hem : (filterGood res.documents res.distances).isEmpty = true := by
      rw [hempty]
      rfl
    simp [handleQuery, hvalid, hne', hem]

/-- Witness for C5: a valid question whose only retrieved match is at
distance 2 (≥ 1.5) gets the successful "not closely related" empty
result. -/
theorem distanceFilter_threshold_witness :
    handleQuery (JSVal.str "tell me") (some "k") (fun _ => none)
        (some [1]) (some ⟨["doc1"], [⟨"T"⟩], [2]⟩)
      = (QueryResponse.answer notRelatedMsg 0, 1, 1) :=
  distanceFilter_threshold.2.2 "tell me" (some "k") (fun _ => none) [1]
    ⟨["doc1"], [⟨"T"⟩], [2]⟩ (by decide) (by decide)
    (by norm_num [filterGood, distBelow, List.enum])

/-- C6 is a code bug: inside `processChunkBatch` the field `total_chunks`
is set to `docs.length`, but there `docs` is the SUB-BATCH slice, not the
whole document's chunk list, so for a document of 15 chunks the entries
carry `total_chunks = 10` (first sub-batch) and `total_chunks = 5` (second
sub-batch) instead of 15 — while `chunk_index` is document-global
(0..14), so entries such as `chunk_index = 14, total_chunks = 5` are
internally inconsistent. -/
theorem totalChunks_is_subbatch_size :
    ((processLoopMetas "A.PDF" (List.replicate 15 "x") "T").map
        (metaLookup "total_chunks")
      = List.replicate 10 (some (MVal.n 10))
          ++ List.replicate 5 (some (MVal.n 5)))
    ∧ ((processLoopMetas "A.PDF" (List.replicate 15 "x") "T").map
        (metaLookup "chunk_index")
      = (List.range 15).map (fun j => some (MVal.n j)))
    ∧ ¬ (∀ m ∈ processLoopMetas "A.PDF" (List.replicate 15 "x") "T",
          metaLookup "total_chunks" m = some (MVal.n 15)) := by
  decide

/-- One sub-batch's ids are the window `[startIndex, startIndex + len)`
of the global id sequence. -/
lemma chunkBatchIds_eq_range' (f : String) (batch : List String) (i : Nat) :
    chunkBatchIds f batch i = (List.range' i batch.length).map (idFor f) := by
  rw [chunkBatchIds, List.range'_eq_map_range, List.map_map]
  rfl

/-- The sub-batch loop flattens to the contiguous id range
`[i, docs.length)` whenever the fuel covers the remaining iterations. -/
lemma processLoopIdsF_eq (f : String) (docs : List String) :
    ∀ (fuel i : Nat), docs.length ≤ i + fuel * CHUNK_BATCH_SIZE →
      processLoopIdsF f docs i fuel
        = (List.range' i (docs.length - i)).map (idFor f) := by
  intro fuel
  induction fuel with
  | zero =>
    intro i h
    have h0 : docs.length - i = 0 := by
      simp only [Nat.zero_mul, Nat.add_zero] at h
      omega
    rw [processLoopIdsF, h0]
    rfl
  | succ fuel ih =>
    intro i h
    rw [processLoopIdsF]
    by_cases hi : i < docs.length
    · rw [if_pos hi]
      rw [ih (i + CHUNK_BATCH_SIZE)
        (by simp only [CHUNK_BATCH_SIZE, Nat.succ_mul] at h ⊢; omega)]
      rw [chunkBatchIds_eq_range', List.length_take, List.length_drop]
      by_cases h10 : docs.length - i ≤ CHUNK_BATCH_SIZE
      · have hmin : min CHUNK_BATCH_SIZE (docs.length - i)
            = docs.length - i := Nat.min_eq_right h10
        have hz : docs.length - (i + CHUNK_BATCH_SIZE) = 0 := by
          simp only [CHUNK_BATCH_SIZE] at h10 ⊢
          omega
        rw [hmin, hz]
        simp
      · have hmin : min CHUNK_BATCH_SIZE (docs.length - i)
            = CHUNK_BATCH_SIZE := Nat.min_eq_left (by omega)
        rw [hmin, ← List.map_append, List.range'_append_1]
        have : docs.length - (i + CHUNK_BATCH_SIZE) + CHUNK_BATCH_SIZE
            = docs.length - i := by
          simp only [CHUNK_BATCH_SIZE] at h10 ⊢
          omega
        rw [this]
    · rw [if_neg hi]
      have h0 : docs.length - i = 0 := by omega
      rw [h0]
      rfl

/-- C9: every id prepared for the vector index is exactly
`<filename>_chunk_<index>` with `index` the chunk's zero-based position in
its source document (the sub-batch loop's `startIndex + idx` is the global
position), and re-ingesting a document that chunks to the same number of
chunks reproduces the identical id list (deterministic derivation, hence
idempotent overwrite). -/
theorem chunkIds_deterministic (f : String) (docs docs' : List String) :
    processLoopIds f docs
      = (List.range docs.length).map (fun j => f ++ "_chunk_" ++ toString j)
    ∧ (docs.length = docs'.length →
        processLoopIds f docs = processLoopIds f docs') := by
  have main : ∀ (l : List String), processLoopIds f l
      = (List.range l.length).map (fun j => f ++ "_chunk_" ++ toString j) := by
    intro l
    rw [processLoopIds,
      processLoopIdsF_eq f l l.length 0
        (by simp only [CHUNK_BATCH_SIZE]; omega),
      Nat.sub_zero, ← List.range_eq_range']
    rfl
  refine ⟨main docs, fun hlen => ?_⟩
  rw [main docs, main docs', hlen]

/-- Witness for C9: two different 2-chunk documents with the same filename
produce the same two ids `A.PDF_chunk_0`, `A.PDF_chunk_1`. -/
theorem chunkIds_deterministic_witness :
    processLoopIds "A.PDF" ["x", "y"] = processLoopIds "A.PDF" ["u", "v"]
    ∧ processLoopIds "A.PDF" ["x", "y"] = ["A.PDF_chunk_0", "A.PDF_chunk_1"] :=
  ⟨(chunkIds_deterministic "A.PDF" ["x", "y"] ["u", "v"]).2 rfl, by decide⟩

/-- A long enough left part decides the whole prefix test. -/
lemma isPrefixOf_append_left (p : List Char) :
    ∀ (l m : List Char), p.length ≤ l.length →
      p.isPrefixOf (l ++ m) = p.isPrefixOf l := by
  induction p with
  | nil => intro l m _; cases l <;> cases m <;> rfl
  | cons a p ih =>
    intro l m h
    cases l with
    | nil => simp at h
    | cons b l' =>
      show (a == b && p.isPrefixOf (l' ++ m)) = (a == b && p.isPrefixOf l')
      rw [ih l' m (by simpa using h)]

/-- `s.replace(pat, '')` is the identity when `pat` does not occur. -/
lemma replaceFirstDel_no_occ (pat : List Char) :
    ∀ l, hasSubstr pat l = false → replaceFirstDel pat l = l := by
  intro l
  induction l with
  | nil => intro _; rfl
  | cons c rest ih =>
    intro h
    rw [hasSubstr, Bool.or_eq_false_iff] at h
    rw [replaceFirstDel]
    simp only [h.1, Bool.false_eq_true, if_false]
    rw [ih h.2]

/-- Since `.PDF` has no self-overlap, appending it to a `.PDF`-free string
and deleting the first occurrence gives back the original string. -/
lemma replaceFirstDel_append_pdfPat :
    ∀ (base : List Char), hasSubstr pdfPat base = false →
      replaceFirstDel pdfPat (base ++ pdfPat) = base := by
  intro base
  induction base with
  | nil => intro _; decide
  | cons c bs ih =>
    intro h
    rw [hasSubstr, Bool.or_eq_false_iff] at h
    obtain ⟨h1, h2⟩ := h
    have hcond : pdfPat.isPrefixOf (c :: (bs ++ pdfPat)) = false := by
      by_cases hlen : pdfPat.length ≤ (c :: bs).length
      · rw [← List.cons_append, isPrefixOf_append_left pdfPat (c :: bs) pdfPat hlen]
        exact h1
      · rcases bs with _ | ⟨b1, _ | ⟨b2, _ | ⟨b3, bs3⟩⟩⟩
        · show (('.' == c) && List.isPrefixOf ['P', 'D', 'F'] pdfPat) = false
          simp [show List.isPrefixOf ['P', 'D', 'F'] pdfPat = false from rfl]
        · show (('.' == c) && (('P' == b1)
              && List.isPrefixOf ['D', 'F'] pdfPat)) = false
          simp [show List.isPrefixOf ['D', 'F'] pdfPat = false from rfl]
        · show (('.' == c) && (('P' == b1) && (('D' == b2)
              && List.isPrefixOf ['F'] pdfPat))) = false
          simp [show List.isPrefixOf ['F'] pdfPat = false from rfl]
        · exact absurd (by simp [pdfPat]) hlen
    rw [List.cons_append, replaceFirstDel]
    simp only [hcond, Bool.false_eq_true, if_false]
    rw [ih h2]

/-- Counterexample to C7: `"a_b.pdf"` is accepted by the case-insensitive
discovery filter, but `replace('.PDF', '')` is case-sensitive, so the
stored title keeps the lowercase extension: it is `"a b.pdf"`, not
`"a b"`. -/
theorem title_keeps_lowercase_extension_cex :
    acceptedByFilter "a_b.pdf" = true
    ∧ titleOf "a_b.pdf" = "a b.pdf"
    ∧ titleOf "a_b.pdf" ≠ "a b" := by
  decide

/-- C7 (amended): the stored title is the filename with the FIRST
occurrence of the exact, case-sensitive substring `.PDF` removed and every
underscore replaced by a space.  For a filename `base ++ ".PDF"` (uppercase
extension, no other `.PDF` occurrence in `base`) this removes the
extension as the claim describes — and such filenames pass the discovery
filter; but for an accepted filename with no exact `.PDF` occurrence
(e.g. a lowercase `.pdf` extension) the extension is kept and only the
underscores are replaced. -/
theorem title_derivation (base f : String)
    (hb : hasSubstr pdfPat base.data = false)
    (hf : hasSubstr pdfPat f.data = false) :
    titleOf (base ++ ".PDF") = String.mk (base.data.map usToSpace)
    ∧ acceptedByFilter (base ++ ".PDF") = true
    ∧ titleOf f = String.mk (f.data.map usToSpace) := by
  have hdata : (base ++ ".PDF").data = base.data ++ pdfPat := rfl
  refine ⟨?_, ?_, ?_⟩
  · rw [titleOf, hdata, replaceFirstDel_append_pdfPat base.data hb]
  · rw [acceptedByFilter, hdata, List.map_append,
      show pdfPat.map Char.toLower = ['.', 'p', 'd', 'f'] from rfl]
    rw [show (List.isSuffixOf ['.', 'p', 'd', 'f']
          (base.data.map Char.toLower ++ ['.', 'p', 'd', 'f']) = true)
        = (['.', 'p', 'd', 'f']
            <:+ base.data.map Char.toLower ++ ['.', 'p', 'd', 'f'])
      from propext List.isSuffixOf_iff_suffix]
    exact List.suffix_append (base.data.map Char.toLower) ['.', 'p', 'd', 'f']
  · rw [titleOf, replaceFirstDel_no_occ pdfPat f.data hf]

/-- Witness for C7 (amended): `"MY_CASE.PDF"` gets title `"MY CASE"`
(extension stripped), while the filter-accepted `"a_b.pdf"` gets title
`"a b.pdf"` (extension kept, underscores replaced). -/
theorem title_derivation_witness :
    titleOf "MY_CASE.PDF" = "MY CASE"
    ∧ acceptedByFilter "MY_CASE.PDF" = true
    ∧ titleOf "a_b.pdf" = "a b.pdf" :=
  ⟨by rw [show ("MY_CASE.PDF" : String) = "MY_CASE" ++ ".PDF" from rfl,
        (title_derivation "MY_CASE" "a_b.pdf" (by decide) (by decide)).1]
      decide,
   by rw [show ("MY_CASE.PDF" : String) = "MY_CASE" ++ ".PDF" from rfl]
      exact (title_derivation "MY_CASE" "a_b.pdf" (by decide) (by decide)).2.1,
   by rw [(title_derivation "MY_CASE" "a_b.pdf" (by decide) (by decide)).2.2]
      decide⟩

end RAG
